import Mathlib

/- Shallow embedding of the telemetry-synthesis handler of this repository
(Go package rest: HandleGenerateFileSingleMarker and its helper functions).

Modelling conventions:
* Go float64 values are modelled as exact rationals.
* Go int values are modelled as integers; a Go conversion of a float to an
  int is truncation toward zero, modelled by truncQ.
* The transcendental geodesic helpers (haversineDistance,
  calculateInitialCompassBearing, destinationPoint) and the exponential term
  of createBPMProfile are not themselves the subject of any claim; they are
  abstracted as function parameters (dist, bearingF, destPt, sigmoid) and
  every one of their call sites in the source is mirrored.
* The ambient pseudo-random generator (rand.NormFloat64 and rand.Intn
  draws) is made explicit as draw streams gauss, jitB, jitC; the ambient
  clock (time.Now) is made explicit as startTime.
* Go slice operations that can abort at runtime (indexing out of range,
  make with a negative length) are modelled with Option; a none is
  propagated to Outcome.crash, which stands for a Go runtime panic. -/

section RatReducible

attribute [local semireducible] Rat.mul Rat.add Rat.sub Rat.inv Rat.ofScientific

/-- Truncation of a rational toward zero: the Go conversion int(x). -/
def truncQ (q : ℚ) : ℤ := if q < 0 then -⌊-q⌋ else ⌊q⌋

/-- Go slice indexing with an int index: out-of-range access is a panic,
modelled as none. -/
def idx? (l : List ℚ) (i : ℤ) : Option ℚ :=
  if h : 0 ≤ i ∧ i < (l.length : ℤ) then some (l.get ⟨i.toNat, by omega⟩) else none

/-- Sequence a list of optional values; any none (a modelled panic)
propagates. -/
def optSeq {α : Type} : List (Option α) → Option (List α)
  | [] => some []
  | none :: _ => none
  | some a :: rest =>
    match optSeq rest with
    | none => none
    | some l => some (a :: l)

/-- A parsed GPX track point (source type Trkpt, the fields the handler
uses). -/
structure Trkpt where
  lat : ℚ
  lon : ℚ
  ele : ℚ
deriving DecidableEq

/-- A coordinate of the output route (source type Coordinate). -/
structure Coordinate where
  lat : ℚ
  lon : ℚ
  ele : ℚ
deriving DecidableEq

/-- The success payload of the handler (source type GPXDataResult).
Timestamps are modelled as integer epoch seconds. -/
structure GPXDataResult where
  timestamps : List ℤ
  bpmProfile : List ℤ
  paceProfile : List ℚ
  route : List Coordinate
deriving DecidableEq

/-- The observable outcome of one handler run on already-parsed points:
the 500 response for an empty point list, the (unreachable) 500 mismatch
response, a Go runtime panic, or the 200 response with the record. -/
inductive Outcome where
  | errNoPoints : Outcome
  | errMismatch : Outcome
  | crash : Outcome
  | ok : GPXDataResult → Outcome
deriving DecidableEq

/-- Handler lines 211 and 214: totalTimeSeconds :=
int(1.3 * float64(int(float64(routeLength) / 1.5))). -/
def inflatedHorizon (routeLength : ℤ) : ℤ :=
  truncQ ((1.3 : ℚ) * ((truncQ ((routeLength : ℚ) / 1.5)) : ℚ))

/-- Source function createSpeedProfile. Returns none when totalSeconds is
nonpositive: a negative length makes the allocation panic, and a zero
length makes the write randomFluctuations[0] panic. -/
def createSpeedProfile (totalSeconds : ℤ) (avgSpeed speedDecrease : ℚ)
    (gauss : ℕ → ℚ) : Option (List ℚ) :=
  if totalSeconds ≤ 0 then none
  else
    let n := totalSeconds.toNat
    let minSpeed := avgSpeed * 0.90
    some ((List.range n).map fun i =>
      let fluct : ℚ := if i = 0 then 0.2 * avgSpeed else gauss i * 1.8
      let desired := avgSpeed + fluct
      let profile := desired - speedDecrease * (i : ℚ) / (n : ℚ)
      if profile < minSpeed then minSpeed else profile)

/-- Loop body of createBPMProfile at second t, for 1 ≤ t < totalSeconds.
The logistic factor 1 / (1 + exp(-12 * (progress - 0.2))) is the abstract
parameter sigmoid applied to progress. -/
def bpmBody (avgBPM avgSpeed : ℚ) (n : ℕ) (speedProfile elevationChanges : List ℚ)
    (jit : ℕ → ℤ) (sigmoid : ℚ → ℚ) (t : ℕ) : Option ℚ :=
  match speedProfile[t]? with
  | none => none
  | some s =>
    let progress : ℚ := (t : ℚ) / (n : ℚ)
    let baseBPM : ℚ := -20 + 20 * sigmoid progress
    let bpmSpeed := (s - avgSpeed) * 10
    let elevationChange := (elevationChanges[t]?).getD 0
    let bpmElevation := elevationChange * 8
    let bpmTotal := avgBPM + baseBPM + bpmSpeed + bpmElevation + ((jit t - 1 : ℤ) : ℚ)
    some (if bpmTotal < 60 then (60 : ℚ) else if 200 < bpmTotal then 200 else bpmTotal)

/-- Source function createBPMProfile. Returns none when totalSeconds is
nonpositive (the write bpm[0] or the allocation panics) or when an access
speedProfile[t] is out of range. -/
def createBPMProfile (totalSeconds : ℤ) (avgBPM avgSpeed : ℚ)
    (speedProfile elevationChanges : List ℚ) (jit : ℕ → ℤ) (sigmoid : ℚ → ℚ) :
    Option (List ℚ) :=
  if totalSeconds ≤ 0 then none
  else
    let n := totalSeconds.toNat
    match optSeq ((List.range (n - 1)).map fun k =>
        bpmBody avgBPM avgSpeed n speedProfile elevationChanges jit sigmoid (k + 1)) with
    | none => none
    | some rest => some ((avgBPM - 20) :: rest)

/-- Loop body of createCadenceProfile at second t, for 1 ≤ t < totalSeconds. -/
def cadBody (avgCadence avgSpeed : ℚ) (speedProfile elevationChanges : List ℚ)
    (jit : ℕ → ℤ) (t : ℕ) : Option ℚ :=
  match speedProfile[t]? with
  | none => none
  | some s =>
    let cadenceSpeed := (s - avgSpeed) * 3
    let elevationChange := (elevationChanges[t]?).getD 0
    let cadenceElevation := elevationChange * 2
    let cadenceTotal := avgCadence + cadenceSpeed + cadenceElevation + ((jit t - 1 : ℤ) : ℚ)
    some (if cadenceTotal < 30 then (30 : ℚ) else if 150 < cadenceTotal then 150 else cadenceTotal)

/-- Source function createCadenceProfile. Returns none when totalSeconds is
nonpositive (the write cadence[0] or the allocation panics) or when an
access speedProfile[t] is out of range. -/
def createCadenceProfile (totalSeconds : ℤ) (avgCadence avgSpeed : ℚ)
    (speedProfile elevationChanges : List ℚ) (jit : ℕ → ℤ) : Option (List ℚ) :=
  if totalSeconds ≤ 0 then none
  else
    let n := totalSeconds.toNat
    match optSeq ((List.range (n - 1)).map fun k =>
        cadBody avgCadence avgSpeed speedProfile elevationChanges jit (k + 1)) with
    | none => none
    | some rest => some ((avgCadence + ((jit 0 - 1 : ℤ) : ℚ)) :: rest)

/-- Sample count of interpolatePoints: numSeconds := int(distance / speed),
replaced by 1 if it is 0. -/
def sampleCount (distance speed : ℚ) : ℤ :=
  let numSeconds := truncQ (distance / speed)
  if numSeconds = 0 then 1 else numSeconds

/-- Elapsed-time advance of the handler segment loop (lines 252 to 259):
int(distance / speed) when the speed is positive, else 1. Note there is no
minimum of 1 in the positive branch. -/
def segmentAdvance (distance speed : ℚ) : ℤ :=
  if 0 < speed then truncQ (distance / speed) else 1

/-- Source function interpolatePoints. The parameter totalTime is unused in
the source body and kept for fidelity. The index into the speed profile is
first clamped to the last index; a remaining out-of-range access (an empty
profile or a negative current time) is a panic, modelled as none. -/
def interpolatePoints (dist : Trkpt → Trkpt → ℚ) (bearingF : ℚ → ℚ → ℚ → ℚ → ℚ)
    (destPt : ℚ → ℚ → ℚ → ℚ → ℚ × ℚ) (p1 p2 : Trkpt) (speedProfile : List ℚ)
    (_totalTime currentTime : ℤ) : Option (List Trkpt) :=
  let distance := dist p1 p2
  let ct := if (speedProfile.length : ℤ) ≤ currentTime then (speedProfile.length : ℤ) - 1
            else currentTime
  match idx? speedProfile ct with
  | none => none
  | some speed =>
    let numSeconds := sampleCount distance speed
    let eleDiff := p2.ele - p1.ele
    let bearing := bearingF p1.lat p1.lon p2.lat p2.lon
    some ((List.range numSeconds.toNat).map fun k =>
      let i : ℕ := k + 1
      let fraction : ℚ := (i : ℚ) / (numSeconds : ℚ)
      let interpolatedDistance := speed * (i : ℚ)
      let pos := destPt p1.lat p1.lon bearing interpolatedDistance
      { lat := pos.1, lon := pos.2, ele := p1.ele + eleDiff * fraction })

/-- Handler lines 245 to 263: walk consecutive waypoint pairs, concatenate
the interpolated points, advance elapsed time by segmentAdvance, and stop
once elapsed time reaches totalTimeSeconds. -/
def segmentLoop (dist : Trkpt → Trkpt → ℚ) (bearingF : ℚ → ℚ → ℚ → ℚ → ℚ)
    (destPt : ℚ → ℚ → ℚ → ℚ → ℚ × ℚ) (speedProfile : List ℚ) (totalTimeSeconds : ℤ) :
    List (Trkpt × Trkpt) → ℤ → Option (List Trkpt)
  | [], _ => some []
  | (p1, p2) :: rest, currentTime =>
    match interpolatePoints dist bearingF destPt p1 p2 speedProfile totalTimeSeconds currentTime with
    | none => none
    | some newPoints =>
      match idx? speedProfile currentTime with
      | none => none
      | some s =>
        let distance := dist p1 p2
        let nextTime := currentTime + segmentAdvance distance s
        if totalTimeSeconds ≤ nextTime then some newPoints
        else
          match segmentLoop dist bearingF destPt speedProfile totalTimeSeconds rest nextTime with
          | none => none
          | some more => some (newPoints ++ more)

/-- Handler lines 218 to 230: per-segment elevation deltas spread over the
whole seconds of the segment traversal at the assumed speed. -/
def buildElevationChanges (dist : Trkpt → Trkpt → ℚ) (avgSpeed : ℚ)
    (points : List Trkpt) : List ℚ :=
  (points.zip points.tail).flatMap fun pr =>
    let eleChange := pr.2.ele - pr.1.ele
    let distance := dist pr.1 pr.2
    let numSeconds := truncQ (distance / avgSpeed)
    List.replicate numSeconds.toNat (eleChange / (numSeconds : ℚ))

/-- Handler lines 232 to 238: pad the elevation-change series with zeros up
to the horizon, or truncate it to the horizon. -/
def padTruncate (l : List ℚ) (n : ℕ) : List ℚ :=
  if l.length < n then l ++ List.replicate (n - l.length) 0 else l.take n

/-- Handler lines 269 to 286 (applied to each of bpm and cadence): pad with
the last element up to the trajectory length, or truncate to it. Reading
the last element of an empty series panics (none). -/
def reconcile (l : List ℚ) (n : ℕ) : Option (List ℚ) :=
  if l.length < n then
    match l[l.length - 1]? with
    | none => none
    | some last => some (l ++ List.replicate (n - l.length) last)
  else some (l.take n)

/-- Handler lines 305 to 307: the speed profile is truncated when longer
than the trajectory (and left as is when shorter). -/
def alignSpeed (speedProfile : List ℚ) (totalInterpolated : ℕ) : List ℚ :=
  if totalInterpolated < speedProfile.length then speedProfile.take totalInterpolated
  else speedProfile

/-- Handler lines 309 to 317: allocate totalInterpolated zeros, then
overwrite the prefix indexed by the aligned speed profile with the derived
pace values. -/
def buildPace (speedProfile : List ℚ) (totalInterpolated : ℕ) : List ℚ :=
  (speedProfile.map fun s => if s ≤ 0 then (999 : ℚ) else 1000 / (s * 60)) ++
    List.replicate (totalInterpolated - speedProfile.length) 0

/-- Source function generateTimestamps, over integer epoch seconds. -/
def generateTimestamps (numPoints : ℕ) (intervalSeconds startTime : ℤ) : List ℤ :=
  (List.range numPoints).map fun (i : ℕ) => startTime + (i : ℤ) * intervalSeconds

/-- Source function HandleGenerateFileSingleMarker from the point where the
route is fetched and parsed: the inputs are the parsed points and the
request routeLength, with the ambient randomness, clock and geodesic
helpers made explicit parameters. -/
def handleGenerateFileSingleMarker (dist : Trkpt → Trkpt → ℚ)
    (bearingF : ℚ → ℚ → ℚ → ℚ → ℚ) (destPt : ℚ → ℚ → ℚ → ℚ → ℚ × ℚ)
    (gauss : ℕ → ℚ) (jitB jitC : ℕ → ℤ) (sigmoid : ℚ → ℚ) (startTime : ℤ)
    (points : List Trkpt) (routeLength : ℤ) : Outcome :=
  if points = [] then .errNoPoints
  else
    let totalTime0 := inflatedHorizon routeLength
    match createSpeedProfile totalTime0 1.5 0.2 gauss with
    | none => .crash
    | some speedProfile =>
      let elevationChanges := padTruncate (buildElevationChanges dist 1.5 points) totalTime0.toNat
      let totalTimeSeconds := totalTime0 - 2
      match createBPMProfile totalTimeSeconds 120 1.5 speedProfile elevationChanges jitB sigmoid with
      | none => .crash
      | some bpmProfileFloat =>
        match createCadenceProfile totalTimeSeconds 80 1.5 speedProfile elevationChanges jitC with
        | none => .crash
        | some cadenceProfile =>
          match segmentLoop dist bearingF destPt speedProfile totalTimeSeconds
              (points.zip points.tail) 0 with
          | none => .crash
          | some interpolatedPoints =>
            let totalInterpolated := interpolatedPoints.length
            match reconcile bpmProfileFloat totalInterpolated,
                reconcile cadenceProfile totalInterpolated with
            | some bpmR, some _ =>
              let timestamps := generateTimestamps totalInterpolated 1 startTime
              if timestamps.length ≠ totalInterpolated then .errMismatch
              else
                let bpmProfile := bpmR.map truncQ
                let paceProfile := buildPace (alignSpeed speedProfile totalInterpolated)
                  totalInterpolated
                let route := interpolatedPoints.map fun pt =>
                  ({ lat := pt.lat, lon := pt.lon, ele := pt.ele } : Coordinate)
                .ok { timestamps := timestamps, bpmProfile := bpmProfile,
                      paceProfile := paceProfile, route := route }
            | _, _ => .crash

/-- A some result of optSeq has the length of the input list. -/
theorem optSeq_length {α : Type} (xs : List (Option α)) :
    ∀ l, optSeq xs = some l → l.length = xs.length := by
  induction xs with
  | nil =>
    intro l h
    simp only [optSeq, Option.some.injEq] at h
    subst h
    rfl
  | cons o rest ih =>
    intro l h
    match o with
    | none => simp [optSeq] at h
    | some a =>
      simp only [optSeq] at h
      cases hr : optSeq rest with
      | none => rw [hr] at h; exact absurd h (by simp)
      | some l2 =>
        rw [hr] at h
        simp only [Option.some.injEq] at h
        subst h
        simp [ih l2 hr]

/-- Every element of a some result of optSeq occurs wrapped in some in the
input list. -/
theorem optSeq_mem {α : Type} (xs : List (Option α)) :
    ∀ l x, optSeq xs = some l → x ∈ l → some x ∈ xs := by
  induction xs with
  | nil =>
    intro l x h hx
    simp only [optSeq, Option.some.injEq] at h
    subst h
    simp at hx
  | cons o rest ih =>
    intro l x h hx
    match o with
    | none => simp [optSeq] at h
    | some a =>
      simp only [optSeq] at h
      cases hr : optSeq rest with
      | none => rw [hr] at h; exact absurd h (by simp)
      | some l2 =>
        rw [hr] at h
        simp only [Option.some.injEq] at h
        subst h
        rcases List.mem_cons.mp hx with h1 | h2
        · subst h1; exact List.mem_cons_self _ _
        · exact List.mem_cons_of_mem _ (ih l2 x hr h2)

/-- optSeq succeeds on a list free of none entries. -/
theorem optSeq_some {α : Type} (xs : List (Option α)) (hx : ∀ o ∈ xs, o ≠ none) :
    ∃ l, optSeq xs = some l := by
  induction xs with
  | nil => exact ⟨[], rfl⟩
  | cons o rest ih =>
    match o with
    | none => exact absurd rfl (hx none (by simp))
    | some a =>
      obtain ⟨l, hl⟩ := ih fun o ho => hx o (by simp [ho])
      exact ⟨a :: l, by simp [optSeq, hl]⟩

/-- Truncation toward zero of a nonnegative rational is its floor. -/
theorem truncQ_eq_floor {q : ℚ} (h : 0 ≤ q) : truncQ q = ⌊q⌋ := by
  unfold truncQ
  rw [if_neg (not_lt.mpr h)]

/-- Truncation toward zero preserves nonnegativity. -/
theorem truncQ_nonneg {q : ℚ} (h : 0 ≤ q) : 0 ≤ truncQ q := by
  rw [truncQ_eq_floor h]
  exact Int.floor_nonneg.mpr h

/-- In-range modelled Go indexing succeeds. -/
theorem idx?_some {l : List ℚ} {i : ℤ} (h0 : 0 ≤ i) (h1 : i < (l.length : ℤ)) :
    ∃ x, idx? l i = some x := by
  unfold idx?
  rw [dif_pos ⟨h0, h1⟩]
  exact ⟨_, rfl⟩


/-- A lower clamp is a lower bound of its result. -/
theorem clampMin_le (m q : ℚ) : m ≤ if q < m then m else q := by
  split
  · exact le_refl _
  · next h => exact le_of_not_lt h

/-- A some result of createSpeedProfile has the requested length. -/
theorem createSpeedProfile_length {ts : ℤ} {a sd : ℚ} {g : ℕ → ℚ} {l : List ℚ}
    (h : createSpeedProfile ts a sd g = some l) : l.length = ts.toNat := by
  unfold createSpeedProfile at h
  split at h
  · exact absurd h (by simp)
  · simp only [Option.some.injEq] at h
    subst h
    simp

/-- createSpeedProfile succeeds on a positive length. -/
theorem createSpeedProfile_some {ts : ℤ} (a sd : ℚ) (g : ℕ → ℚ) (h : 0 < ts) :
    ∃ l, createSpeedProfile ts a sd g = some l := by
  unfold createSpeedProfile
  rw [if_neg (by omega)]
  exact ⟨_, rfl⟩

/-- createSpeedProfile fails on a nonpositive length (a modelled panic). -/
theorem createSpeedProfile_none {ts : ℤ} (a sd : ℚ) (g : ℕ → ℚ) (h : ts ≤ 0) :
    createSpeedProfile ts a sd g = none := by
  unfold createSpeedProfile
  rw [if_pos h]

/-- Every value of a generated speed profile is at least the floor value
avgSpeed * 0.90 computed by the source. -/
theorem createSpeedProfile_floor {ts : ℤ} {a sd : ℚ} {g : ℕ → ℚ} {l : List ℚ}
    (h : createSpeedProfile ts a sd g = some l) : ∀ x ∈ l, a * 0.90 ≤ x := by
  unfold createSpeedProfile at h
  split at h
  · exact absurd h (by simp)
  · simp only [Option.some.injEq] at h
    subst h
    intro x hx
    simp only [List.mem_map] at hx
    obtain ⟨i, _, rfl⟩ := hx
    exact clampMin_le _ _

/-- A some value of the bpm loop body is clamped into the interval
from 60 to 200. -/
theorem bpmBody_bounds {aB aS : ℚ} {n : ℕ} {sp el : List ℚ} {j : ℕ → ℤ}
    {sg : ℚ → ℚ} {t : ℕ} {x : ℚ} (h : bpmBody aB aS n sp el j sg t = some x) :
    60 ≤ x ∧ x ≤ 200 := by
  unfold bpmBody at h
  cases hsp : sp[t]? with
  | none => rw [hsp] at h; exact absurd h (by simp)
  | some s =>
    rw [hsp] at h
    simp only [Option.some.injEq] at h
    subst h
    constructor
    · split
      · norm_num
      · split
        · norm_num
        · next h1 _ => exact le_of_not_lt h1
    · split
      · norm_num
      · split
        · exact le_refl _
        · next _ h2 => exact le_of_not_lt h2

/-- A some result of createBPMProfile has the requested length. -/
theorem createBPMProfile_length {ts : ℤ} {aB aS : ℚ} {sp el : List ℚ} {j : ℕ → ℤ}
    {sg : ℚ → ℚ} {l : List ℚ} (h : createBPMProfile ts aB aS sp el j sg = some l) :
    l.length = ts.toNat := by
  simp only [createBPMProfile] at h
  split at h
  · exact absurd h (by simp)
  next hts =>
    split at h
    · exact absurd h (by simp)
    next rest hr =>
      simp only [Option.some.injEq] at h
      subst h
      have := optSeq_length _ _ hr
      simp only [List.length_map, List.length_range] at this
      simp only [List.length_cons, this]
      omega

/-- createBPMProfile succeeds when the length is positive and the speed
profile covers every accessed index. -/
theorem createBPMProfile_some {ts : ℤ} (aB aS : ℚ) {sp : List ℚ} (el : List ℚ)
    (j : ℕ → ℤ) (sg : ℚ → ℚ) (hts : 0 < ts) (hsp : ts.toNat ≤ sp.length) :
    ∃ l, createBPMProfile ts aB aS sp el j sg = some l := by
  simp only [createBPMProfile]
  rw [if_neg (by omega)]
  have hall : ∀ o ∈ (List.range (ts.toNat - 1)).map fun k =>
      bpmBody aB aS ts.toNat sp el j sg (k + 1), o ≠ none := by
    intro o ho
    simp only [List.mem_map, List.mem_range] at ho
    obtain ⟨k, hk, rfl⟩ := ho
    have hidx : k + 1 < sp.length := by omega
    unfold bpmBody
    rw [List.getElem?_eq_getElem hidx]
    simp
  obtain ⟨l, hl⟩ := optSeq_some _ hall
  rw [hl]
  exact ⟨_, rfl⟩

/-- Every element of a some result of createBPMProfile is the fixed first
sample or a clamped loop-body value. -/
theorem createBPMProfile_mem {ts : ℤ} {aB aS : ℚ} {sp el : List ℚ} {j : ℕ → ℤ}
    {sg : ℚ → ℚ} {l : List ℚ} (h : createBPMProfile ts aB aS sp el j sg = some l) :
    ∀ x ∈ l, x = aB - 20 ∨ (60 ≤ x ∧ x ≤ 200) := by
  simp only [createBPMProfile] at h
  split at h
  · exact absurd h (by simp)
  split at h
  · exact absurd h (by simp)
  next rest hr =>
    simp only [Option.some.injEq] at h
    subst h
    intro x hx
    rcases List.mem_cons.mp hx with h1 | h2
    · exact Or.inl h1
    · right
      have hmem := optSeq_mem _ _ _ hr h2
      simp only [List.mem_map] at hmem
      obtain ⟨k, _, hk⟩ := hmem
      exact bpmBody_bounds hk

/-- A some value of the cadence loop body is clamped into the interval
from 30 to 150. -/
theorem cadBody_bounds {aC aS : ℚ} {sp el : List ℚ} {j : ℕ → ℤ} {t : ℕ} {x : ℚ}
    (h : cadBody aC aS sp el j t = some x) : 30 ≤ x ∧ x ≤ 150 := by
  unfold cadBody at h
  cases hsp : sp[t]? with
  | none => rw [hsp] at h; exact absurd h (by simp)
  | some s =>
    rw [hsp] at h
    simp only [Option.some.injEq] at h
    subst h
    constructor
    · split
      · norm_num
      · split
        · norm_num
        · next h1 _ => exact le_of_not_lt h1
    · split
      · norm_num
      · split
        · exact le_refl _
        · next _ h2 => exact le_of_not_lt h2

/-- A some result of createCadenceProfile has the requested length. -/
theorem createCadenceProfile_length {ts : ℤ} {aC aS : ℚ} {sp el : List ℚ}
    {j : ℕ → ℤ} {l : List ℚ} (h : createCadenceProfile ts aC aS sp el j = some l) :
    l.length = ts.toNat := by
  simp only [createCadenceProfile] at h
  split at h
  · exact absurd h (by simp)
  next hts =>
    split at h
    · exact absurd h (by simp)
    next rest hr =>
      simp only [Option.some.injEq] at h
      subst h
      have := optSeq_length _ _ hr
      simp only [List.length_map, List.length_range] at this
      simp only [List.length_cons, this]
      omega

/-- createCadenceProfile succeeds when the length is positive and the speed
profile covers every accessed index. -/
theorem createCadenceProfile_some {ts : ℤ} (aC aS : ℚ) {sp : List ℚ} (el : List ℚ)
    (j : ℕ → ℤ) (hts : 0 < ts) (hsp : ts.toNat ≤ sp.length) :
    ∃ l, createCadenceProfile ts aC aS sp el j = some l := by
  simp only [createCadenceProfile]
  rw [if_neg (by omega)]
  have hall : ∀ o ∈ (List.range (ts.toNat - 1)).map fun k =>
      cadBody aC aS sp el j (k + 1), o ≠ none := by
    intro o ho
    simp only [List.mem_map, List.mem_range] at ho
    obtain ⟨k, hk, rfl⟩ := ho
    have hidx : k + 1 < sp.length := by omega
    unfold cadBody
    rw [List.getElem?_eq_getElem hidx]
    simp
  obtain ⟨l, hl⟩ := optSeq_some _ hall
  rw [hl]
  exact ⟨_, rfl⟩

/-- Every element of a some result of createCadenceProfile is the jittered
first sample or a clamped loop-body value. -/
theorem createCadenceProfile_mem {ts : ℤ} {aC aS : ℚ} {sp el : List ℚ}
    {j : ℕ → ℤ} {l : List ℚ} (h : createCadenceProfile ts aC aS sp el j = some l) :
    ∀ x ∈ l, x = aC + ((j 0 - 1 : ℤ) : ℚ) ∨ (30 ≤ x ∧ x ≤ 150) := by
  simp only [createCadenceProfile] at h
  split at h
  · exact absurd h (by simp)
  split at h
  · exact absurd h (by simp)
  next rest hr =>
    simp only [Option.some.injEq] at h
    subst h
    intro x hx
    rcases List.mem_cons.mp hx with h1 | h2
    · exact Or.inl h1
    · right
      have hmem := optSeq_mem _ _ _ hr h2
      simp only [List.mem_map] at hmem
      obtain ⟨k, _, hk⟩ := hmem
      exact cadBody_bounds hk

/-- A some result of reconcile has exactly the requested length. -/
theorem reconcile_length {l l2 : List ℚ} {n : ℕ} (h : reconcile l n = some l2) :
    l2.length = n := by
  unfold reconcile at h
  split at h
  next hlt =>
    cases hg : l[l.length - 1]? with
    | none => rw [hg] at h; exact absurd h (by simp)
    | some last =>
      rw [hg] at h
      simp only [Option.some.injEq] at h
      subst h
      simp only [List.length_append, List.length_replicate]
      omega
  next hge =>
    simp only [Option.some.injEq] at h
    subst h
    simp only [List.length_take]
    omega

/-- reconcile succeeds on a nonempty input list. -/
theorem reconcile_some {l : List ℚ} (n : ℕ) (h : l ≠ []) :
    ∃ l2, reconcile l n = some l2 := by
  unfold reconcile
  split
  · have hlen : 0 < l.length := List.length_pos.mpr h
    have hi : l.length - 1 < l.length := by omega
    rw [List.getElem?_eq_getElem hi]
    exact ⟨_, rfl⟩
  · exact ⟨_, rfl⟩

/-- Every element of a some result of reconcile occurs in the input list. -/
theorem reconcile_mem {l l2 : List ℚ} {n : ℕ} (h : reconcile l n = some l2) :
    ∀ x ∈ l2, x ∈ l := by
  unfold reconcile at h
  split at h
  · cases hg : l[l.length - 1]? with
    | none => rw [hg] at h; exact absurd h (by simp)
    | some last =>
      rw [hg] at h
      simp only [Option.some.injEq] at h
      subst h
      intro x hx
      rcases List.mem_append.mp hx with h1 | h2
      · exact h1
      · rw [List.eq_of_mem_replicate h2]
        exact List.getElem?_mem hg
  · simp only [Option.some.injEq] at h
    subst h
    intro x hx
    exact List.take_subset _ _ hx

/-- The padded or truncated elevation series has exactly the requested
length. -/
theorem padTruncate_length (l : List ℚ) (n : ℕ) : (padTruncate l n).length = n := by
  unfold padTruncate
  split
  · simp only [List.length_append, List.length_replicate]
    omega
  · simp only [List.length_take]
    omega

/-- The aligned speed profile is never longer than the trajectory. -/
theorem alignSpeed_length_le (sp : List ℚ) (n : ℕ) : (alignSpeed sp n).length ≤ n := by
  unfold alignSpeed
  split
  · simp only [List.length_take]
    omega
  · omega

/-- The pace series has exactly the trajectory length when built from a
speed profile that is not longer than the trajectory. -/
theorem buildPace_length {sp : List ℚ} {n : ℕ} (h : sp.length ≤ n) :
    (buildPace sp n).length = n := by
  unfold buildPace
  simp only [List.length_append, List.length_map, List.length_replicate]
  omega

/-- generateTimestamps yields exactly the requested number of stamps. -/
theorem generateTimestamps_length (n : ℕ) (i t : ℤ) :
    (generateTimestamps n i t).length = n := by
  unfold generateTimestamps
  simp only [List.length_map, List.length_range]

/-- The segment advance is nonnegative for a nonnegative distance. -/
theorem segmentAdvance_nonneg {d s : ℚ} (hd : 0 ≤ d) : 0 ≤ segmentAdvance d s := by
  unfold segmentAdvance
  split
  · next hs => exact truncQ_nonneg (div_nonneg hd hs.le)
  · omega

/-- interpolatePoints succeeds whenever the elapsed time is nonnegative and
the speed profile is nonempty. -/
theorem interpolatePoints_some (dist : Trkpt → Trkpt → ℚ) (bearingF : ℚ → ℚ → ℚ → ℚ → ℚ)
    (destPt : ℚ → ℚ → ℚ → ℚ → ℚ × ℚ) (p1 p2 : Trkpt) {sp : List ℚ} (tt : ℤ) {ct : ℤ}
    (hct : 0 ≤ ct) (hsp : sp ≠ []) :
    ∃ pts, interpolatePoints dist bearingF destPt p1 p2 sp tt ct = some pts := by
  have hlen : 0 < sp.length := List.length_pos.mpr hsp
  obtain ⟨x, hx⟩ := idx?_some (l := sp)
    (i := if (sp.length : ℤ) ≤ ct then (sp.length : ℤ) - 1 else ct)
    (by split <;> omega) (by split <;> omega)
  simp only [interpolatePoints]
  rw [hx]
  exact ⟨_, rfl⟩

/-- The handler segment loop succeeds whenever every segment distance is
nonnegative, the elapsed time starts nonnegative below the horizon, and
the speed profile covers the horizon. -/
theorem segmentLoop_some (dist : Trkpt → Trkpt → ℚ) (bearingF : ℚ → ℚ → ℚ → ℚ → ℚ)
    (destPt : ℚ → ℚ → ℚ → ℚ → ℚ × ℚ) {sp : List ℚ} {ts : ℤ}
    (hts : ts ≤ (sp.length : ℤ)) (pairs : List (Trkpt × Trkpt))
    (hd : ∀ pr ∈ pairs, 0 ≤ dist pr.1 pr.2) :
    ∀ ct : ℤ, 0 ≤ ct → ct < ts →
      ∃ l, segmentLoop dist bearingF destPt sp ts pairs ct = some l := by
  induction pairs with
  | nil => exact fun ct _ _ => ⟨[], rfl⟩
  | cons pr rest ih =>
    intro ct h0 h1
    obtain ⟨p1, p2⟩ := pr
    have hsp : sp ≠ [] := by
      intro hnil
      rw [hnil] at hts
      simp only [List.length_nil, Nat.cast_zero] at hts
      omega
    obtain ⟨pts, hpts⟩ := interpolatePoints_some dist bearingF destPt p1 p2 ts h0 hsp
    obtain ⟨s, hs⟩ := idx?_some h0 (lt_of_lt_of_le h1 hts)
    have hadv : 0 ≤ segmentAdvance (dist p1 p2) s :=
      segmentAdvance_nonneg (hd (p1, p2) (List.mem_cons_self _ _))
    simp only [segmentLoop, hpts, hs]
    by_cases hstop : ts ≤ ct + segmentAdvance (dist p1 p2) s
    · refine ⟨pts, ?_⟩
      rw [if_pos hstop]
    · obtain ⟨more, hmore⟩ :=
        ih (fun pr2 hpr2 => hd pr2 (List.mem_cons_of_mem _ hpr2))
          (ct + segmentAdvance (dist p1 p2) s) (by omega) (by omega)
      refine ⟨pts ++ more, ?_⟩
      rw [if_neg hstop, hmore]

/-- Claim C2 counterexample: in a run whose trajectory has 6 samples while
the speed profile has only 5, the source does not pad the speed profile;
the last pace entry is the unwritten allocation value 0, not the value
1000 / (s * 60) at the padded speed s = 27/20 and not the sentinel 999
that the claim allows. Seven waypoints 1 meter apart (the abstracted
distance returns 1) advance elapsed time by int(1 / speed) = 0 per
segment, so all 6 segments are processed. -/
theorem claim2_counterexample :
    ∃ r, handleGenerateFileSingleMarker (fun _ _ => 1) (fun _ _ _ _ => 0)
        (fun la lo _ _ => (la, lo)) (fun _ => 0) (fun _ => 1) (fun _ => 1) (fun _ => 0) 0
        (List.replicate 7 ⟨0, 0, 0⟩) 6 = .ok r ∧
      r.paceProfile[5]? = some 0 ∧
      ¬ ((0 : ℚ) = 1000 / ((27 / 20) * 60)) ∧ ¬ ((0 : ℚ) = 999) := by
  refine ⟨{ timestamps := [0, 1, 2, 3, 4, 5],
            bpmProfile := [100, 99, 99, 99, 99, 99],
            paceProfile := [250/27, 2500/219, 2500/213, 2500/207, 1000/81, 0],
            route := List.replicate 6 { lat := 0, lon := 0, ele := 0 } }, ?_, ?_, ?_, ?_⟩
  · decide
  · decide
  · decide
  · decide

/-- Claim C2 as amended: for indices covered by the aligned speed profile
(which is only ever truncated, never padded) the pace is 1000 / (s * 60)
for positive s and the sentinel 999 for s ≤ 0; pace entries beyond the
speed profile length keep the allocation value 0. -/
theorem claim2_amended (sp : List ℚ) (n i : ℕ) (hi : i < n) :
    (buildPace (alignSpeed sp n) n).length = n ∧
    (buildPace (alignSpeed sp n) n)[i]? =
      some (match (alignSpeed sp n)[i]? with
            | some s => if s ≤ 0 then (999 : ℚ) else 1000 / (s * 60)
            | none => 0) := by
  have hal : (alignSpeed sp n).length ≤ n := alignSpeed_length_le sp n
  refine ⟨buildPace_length hal, ?_⟩
  unfold buildPace
  by_cases hcase : i < (alignSpeed sp n).length
  · rw [List.getElem?_append_left (by simpa using hcase), List.getElem?_map,
      List.getElem?_eq_getElem hcase]
    rfl
  · push_neg at hcase
    have hnone : (alignSpeed sp n)[i]? = none := List.getElem?_eq_none hcase
    rw [hnone, List.getElem?_append_right (by simpa using hcase)]
    simp only [List.length_map]
    rw [List.getElem?_replicate_of_lt (by omega)]

/-- Claim C2 witness: the amended claim applied to the speed profile with
the single entry 2 and a trajectory of 2 samples. -/
theorem claim2_witness :
    (buildPace (alignSpeed [2] 2) 2).length = 2 ∧
    (buildPace (alignSpeed [2] 2) 2)[1]? =
      some (match (alignSpeed [2] 2)[1]? with
            | some s => if s ≤ 0 then (999 : ℚ) else 1000 / (s * 60)
            | none => 0) :=
  claim2_amended [2] 2 1 (by omega)

/-- Claim C3 counterexample: for routeLength 6 the inflated horizon is 5;
the generated speed profile has 5 entries while the heart-rate and cadence
profiles, generated for horizon minus 2, have 3 entries each, so the three
profiles do not share one length. -/
theorem claim3_counterexample :
    createSpeedProfile (inflatedHorizon 6) 1.5 0.2 (fun _ => 0) =
        some [9/5, 73/50, 71/50, 69/50, 27/20] ∧
    createBPMProfile (inflatedHorizon 6 - 2) 120 1.5 [9/5, 73/50, 71/50, 69/50, 27/20]
        (List.replicate 5 0) (fun _ => 1) (fun _ => 0) = some [100, 498/5, 496/5] ∧
    createCadenceProfile (inflatedHorizon 6 - 2) 80 1.5 [9/5, 73/50, 71/50, 69/50, 27/20]
        (List.replicate 5 0) (fun _ => 1) = some [80, 1997/25, 1994/25] ∧
    ¬ (([9/5, 73/50, 71/50, 69/50, 27/20] : List ℚ).length =
        ([100, 498/5, 496/5] : List ℚ).length) := by
  refine ⟨?_, ?_, ?_, ?_⟩
  · decide
  · decide
  · decide
  · decide

/-- Claim C3 as amended: the speed profile has the inflated horizon as its
length, while the heart-rate and cadence profiles both have the inflated
horizon minus 2 as their (shared) length. -/
theorem claim3_amended (routeLength : ℤ) (gauss : ℕ → ℚ) (el : List ℚ)
    (jitB jitC : ℕ → ℤ) (sigmoid : ℚ → ℚ) (sp b cad : List ℚ)
    (hsp : createSpeedProfile (inflatedHorizon routeLength) 1.5 0.2 gauss = some sp)
    (hb : createBPMProfile (inflatedHorizon routeLength - 2) 120 1.5 sp el jitB sigmoid
      = some b)
    (hc : createCadenceProfile (inflatedHorizon routeLength - 2) 80 1.5 sp el jitC
      = some cad) :
    sp.length = (inflatedHorizon routeLength).toNat ∧
    b.length = (inflatedHorizon routeLength - 2).toNat ∧
    cad.length = (inflatedHorizon routeLength - 2).toNat :=
  ⟨createSpeedProfile_length hsp, createBPMProfile_length hb,
    createCadenceProfile_length hc⟩

/-- Claim C3 witness: the amended length statement at routeLength 6. -/
theorem claim3_witness :
    ([9/5, 73/50, 71/50, 69/50, 27/20] : List ℚ).length = (inflatedHorizon 6).toNat ∧
    ([100, 498/5, 496/5] : List ℚ).length = (inflatedHorizon 6 - 2).toNat ∧
    ([80, 1997/25, 1994/25] : List ℚ).length = (inflatedHorizon 6 - 2).toNat :=
  claim3_amended 6 (fun _ => 0) (List.replicate 5 0) (fun _ => 1) (fun _ => 1)
    (fun _ => 0) _ _ _ (by decide) (by decide) (by decide)

/-- Claim C4: for every horizon length at least 1, every positive target
average speed, and every outcome of the random fluctuations, every value of
the generated speed profile is at least 0.9 times the target average
speed. -/
theorem claim4_speed_floor (ts : ℤ) (avgSpeed speedDecrease : ℚ) (gauss : ℕ → ℚ)
    (l : List ℚ) (hts : 1 ≤ ts) (havg : 0 < avgSpeed)
    (h : createSpeedProfile ts avgSpeed speedDecrease gauss = some l) :
    ∀ x ∈ l, 0.9 * avgSpeed ≤ x := by
  intro x hx
  have h09 : (0.9 : ℚ) * avgSpeed = avgSpeed * 0.90 := by
    rw [mul_comm]
    norm_num
  rw [h09]
  exact createSpeedProfile_floor h x hx

/-- Claim C4 witness: the floor property applied at horizon 3, target
speed 1, and the zero fluctuation stream, at the clamped third sample. -/
theorem claim4_witness : (0.9 : ℚ) * 1 ≤ 9 / 10 :=
  claim4_speed_floor 3 1 0.2 (fun _ => 0) [6/5, 14/15, 9/10] (by omega) (by norm_num)
    (by decide) (9/10) (by decide)


/-- Claim C5: with the configured targets (average BPM 120, average cadence
80) and for every random outcome, every sample of the heart-rate profile
(including the first sample 100 and any padding repeated during
reconciliation) lies between 60 and 200, and every sample of the cadence
profile lies between 30 and 150. -/
theorem claim5_profile_bounds (ts : ℤ) (avgSpeed : ℚ) (sp el : List ℚ)
    (jitB jitC : ℕ → ℤ) (sigmoid : ℚ → ℚ) (n : ℕ) (b cad br cr : List ℚ)
    (hjC : ∀ k, 0 ≤ jitC k ∧ jitC k < 3)
    (hb : createBPMProfile ts 120 avgSpeed sp el jitB sigmoid = some b)
    (hc : createCadenceProfile ts 80 avgSpeed sp el jitC = some cad)
    (hrb : reconcile b n = some br) (hrc : reconcile cad n = some cr) :
    (∀ x ∈ br, 60 ≤ x ∧ x ≤ 200) ∧ (∀ x ∈ cr, 30 ≤ x ∧ x ≤ 150) := by
  constructor
  · intro x hx
    rcases createBPMProfile_mem hb x (reconcile_mem hrb x hx) with h1 | h2
    · subst h1
      norm_num
    · exact h2
  · intro x hx
    rcases createCadenceProfile_mem hc x (reconcile_mem hrc x hx) with h1 | h2
    · subst h1
      obtain ⟨hj0, hj1⟩ := hjC 0
      have hlo : (-1 : ℚ) ≤ ((jitC 0 - 1 : ℤ) : ℚ) := by
        exact_mod_cast (by omega : (-1 : ℤ) ≤ jitC 0 - 1)
      have hhi : ((jitC 0 - 1 : ℤ) : ℚ) ≤ 2 := by
        exact_mod_cast (by omega : (jitC 0 - 1 : ℤ) ≤ 2)
      constructor
      · linarith
      · linarith
    · exact h2

/-- Claim C5 witness: the bounds applied to a concrete run (horizon 3,
reconciliation to 4 samples), evaluated at the first heart-rate sample. -/
theorem claim5_witness : (60 : ℚ) ≤ 100 ∧ (100 : ℚ) ≤ 200 :=
  (claim5_profile_bounds 3 1.5 [9/5, 73/50, 71/50, 69/50, 27/20] (List.replicate 5 0)
    (fun _ => 1) (fun _ => 1) (fun _ => 0) 4 [100, 498/5, 496/5] [80, 1997/25, 1994/25]
    [100, 498/5, 496/5, 496/5] [80, 1997/25, 1994/25, 1994/25]
    (by intro k; exact ⟨by norm_num, by norm_num⟩) (by decide) (by decide) (by decide)
    (by decide)).1
    100 (by decide)

/-- Claim C6 counterexample: on a processed segment of distance 1 with
current speed 2 (positive, quotient one half below 1), the handler advances
elapsed time by int(1 / 2) = 0, not by the minimum of 1 second the claim
states, while the interpolator emits max(1, int(1 / 2)) = 1 sample; the two
durations also disagree with each other. -/
theorem claim6_counterexample :
    (0 : ℚ) < 2 ∧ (1 : ℚ) / 2 < 1 ∧ segmentAdvance 1 2 = 0 ∧ sampleCount 1 2 = 1 := by
  refine ⟨?_, ?_, ?_, ?_⟩
  · decide
  · decide
  · decide
  · decide

/-- Claim C6 as amended: for a nonnegative distance and positive speed the
interpolator emits at least one sample, but the handler advances elapsed
time by the unclamped int(distance / speed), which is 0 exactly when the
distance is smaller than the speed. -/
theorem claim6_amended (d s : ℚ) (hd : 0 ≤ d) (hs : 0 < s) :
    1 ≤ sampleCount d s ∧ segmentAdvance d s = truncQ (d / s) ∧
      (segmentAdvance d s = 0 ↔ d < s) := by
  have hq : 0 ≤ d / s := div_nonneg hd hs.le
  have hnn : 0 ≤ truncQ (d / s) := truncQ_nonneg hq
  refine ⟨?_, ?_, ?_⟩
  · simp only [sampleCount]
    split
    · omega
    · omega
  · unfold segmentAdvance
    rw [if_pos hs]
  · unfold segmentAdvance
    rw [if_pos hs, truncQ_eq_floor hq, Int.floor_eq_zero_iff]
    constructor
    · intro hmem
      exact (div_lt_one hs).mp hmem.2
    · intro hds
      exact ⟨hq, (div_lt_one hs).mpr hds⟩

/-- Claim C6 witness: the amended statement at distance 1 and speed 2. -/
theorem claim6_witness :
    1 ≤ sampleCount 1 2 ∧ segmentAdvance 1 2 = truncQ (1 / 2) ∧
      (segmentAdvance 1 2 = 0 ↔ (1 : ℚ) < 2) :=
  claim6_amended 1 2 (by norm_num) (by norm_num)

/-- Claim C8: with the pseudo-random draws, the clock, and the geodesic
helpers made explicit inputs, the synthesis run is a pure function: two
runs on equal inputs produce identical records. -/
theorem claim8_determinism
    (dist1 dist2 : Trkpt → Trkpt → ℚ) (bearingF1 bearingF2 : ℚ → ℚ → ℚ → ℚ → ℚ)
    (destPt1 destPt2 : ℚ → ℚ → ℚ → ℚ → ℚ × ℚ) (gauss1 gauss2 : ℕ → ℚ)
    (jitB1 jitB2 jitC1 jitC2 : ℕ → ℤ) (sigmoid1 sigmoid2 : ℚ → ℚ)
    (startTime1 startTime2 : ℤ) (points1 points2 : List Trkpt)
    (routeLength1 routeLength2 : ℤ)
    (h1 : dist1 = dist2) (h2 : bearingF1 = bearingF2) (h3 : destPt1 = destPt2)
    (h4 : gauss1 = gauss2) (h5 : jitB1 = jitB2) (h6 : jitC1 = jitC2)
    (h7 : sigmoid1 = sigmoid2) (h8 : startTime1 = startTime2)
    (h9 : points1 = points2) (h10 : routeLength1 = routeLength2) :
    handleGenerateFileSingleMarker dist1 bearingF1 destPt1 gauss1 jitB1 jitC1 sigmoid1
        startTime1 points1 routeLength1 =
      handleGenerateFileSingleMarker dist2 bearingF2 destPt2 gauss2 jitB2 jitC2 sigmoid2
        startTime2 points2 routeLength2 := by
  subst h1 h2 h3 h4 h5 h6 h7 h8 h9 h10
  rfl

/-- Claim C8 witness: determinism applied at one concrete input bundle. -/
theorem claim8_witness :
    handleGenerateFileSingleMarker (fun _ _ => 1) (fun _ _ _ _ => 0)
        (fun la lo _ _ => (la, lo)) (fun _ => 0) (fun _ => 1) (fun _ => 1) (fun _ => 0) 0
        [⟨0, 0, 0⟩, ⟨0, 1, 0⟩] 6 =
      handleGenerateFileSingleMarker (fun _ _ => 1) (fun _ _ _ _ => 0)
        (fun la lo _ _ => (la, lo)) (fun _ => 0) (fun _ => 1) (fun _ => 1) (fun _ => 0) 0
        [⟨0, 0, 0⟩, ⟨0, 1, 0⟩] 6 :=
  claim8_determinism _ _ _ _ _ _ _ _ _ _ _ _ _ _ _ _ _ _ _ _
    rfl rfl rfl rfl rfl rfl rfl rfl rfl rfl

/-- Claim C9: for every waypoint sequence and every horizon length, the
concatenated per-segment elevation-change series, zero-padded when shorter
than the horizon and truncated when longer, has final length exactly the
horizon. -/
theorem claim9_elevation_length (dist : Trkpt → Trkpt → ℚ) (avgSpeed : ℚ)
    (points : List Trkpt) (horizon : ℕ) :
    (padTruncate (buildElevationChanges dist avgSpeed points) horizon).length = horizon :=
  padTruncate_length _ _


/-- Claim C1: for every request that completes successfully, the returned
record's four sequences (timestamps, heart-rate series, pace series, route)
all have length equal to the interpolated trajectory's sample count; a
record with unequal lengths is never emitted. -/
theorem claim1_record_lengths (dist : Trkpt → Trkpt → ℚ)
    (bearingF : ℚ → ℚ → ℚ → ℚ → ℚ) (destPt : ℚ → ℚ → ℚ → ℚ → ℚ × ℚ)
    (gauss : ℕ → ℚ) (jitB jitC : ℕ → ℤ) (sigmoid : ℚ → ℚ) (startTime : ℤ)
    (points : List Trkpt) (routeLength : ℤ) (r : GPXDataResult)
    (h : handleGenerateFileSingleMarker dist bearingF destPt gauss jitB jitC sigmoid
      startTime points routeLength = .ok r) :
    r.timestamps.length = r.route.length ∧ r.bpmProfile.length = r.route.length ∧
      r.paceProfile.length = r.route.length := by
  simp only [handleGenerateFileSingleMarker] at h
  split at h
  · exact Outcome.noConfusion h
  split at h
  · exact Outcome.noConfusion h
  next sp hsp =>
  split at h
  · exact Outcome.noConfusion h
  next bpmF hbpm =>
  split at h
  · exact Outcome.noConfusion h
  next cadF hcad =>
  split at h
  · exact Outcome.noConfusion h
  next interp hloop =>
  split at h
  next bpmR cadR hrb hrc =>
    split at h
    · exact Outcome.noConfusion h
    next hne =>
    rw [Outcome.ok.injEq] at h
    subst h
    refine ⟨?_, ?_, ?_⟩
    · simp only [generateTimestamps_length, List.length_map]
    · simp only [List.length_map]
      exact reconcile_length hrb
    · simp only [List.length_map]
      exact buildPace_length (alignSpeed_length_le _ _)
  next =>
    exact Outcome.noConfusion h

/-- Claim C1 witness: the length equalities at a concrete successful run
(a single parsed waypoint, routeLength 6), whose record is empty in all
four series. -/
theorem claim1_witness :
    ([] : List ℤ).length = ([] : List Coordinate).length ∧
    ([] : List ℤ).length = ([] : List Coordinate).length ∧
    ([] : List ℚ).length = ([] : List Coordinate).length :=
  claim1_record_lengths (fun _ _ => 1) (fun _ _ _ _ => 0) (fun la lo _ _ => (la, lo))
    (fun _ => 0) (fun _ => 1) (fun _ => 1) (fun _ => 0) 0 [⟨0, 0, 0⟩] 6
    { timestamps := [], bpmProfile := [], paceProfile := [], route := [] } (by decide)


/-- Claim C7: the profile generators write index 0 of a slice of the given
length unconditionally, so for any parsed nonempty point list whose
routeLength makes the inflated horizon int(1.3 * int(routeLength / 1.5))
less than 3 the handler ends in a runtime panic (crash) rather than an
error response; and for inflated horizon at least 3 every slice access in
the profile generators and the segment loop stays in bounds, so the
handler returns a record. The nonnegativity of dist captures that the
haversine distance of the source is nonnegative. -/
theorem claim7_panic_boundary (dist : Trkpt → Trkpt → ℚ)
    (bearingF : ℚ → ℚ → ℚ → ℚ → ℚ) (destPt : ℚ → ℚ → ℚ → ℚ → ℚ × ℚ)
    (gauss : ℕ → ℚ) (jitB jitC : ℕ → ℤ) (sigmoid : ℚ → ℚ) (startTime : ℤ)
    (points : List Trkpt) (routeLength : ℤ) (hpts : points ≠ [])
    (hdist : ∀ a b : Trkpt, 0 ≤ dist a b) :
    (inflatedHorizon routeLength < 3 →
      handleGenerateFileSingleMarker dist bearingF destPt gauss jitB jitC sigmoid
        startTime points routeLength = .crash) ∧
    (3 ≤ inflatedHorizon routeLength →
      ∃ r, handleGenerateFileSingleMarker dist bearingF destPt gauss jitB jitC sigmoid
        startTime points routeLength = .ok r) := by
  constructor
  · intro hH
    simp only [handleGenerateFileSingleMarker]
    rw [if_neg hpts]
    by_cases h0 : inflatedHorizon routeLength ≤ 0
    · simp only [createSpeedProfile_none 1.5 0.2 gauss h0]
    · obtain ⟨sp, hsp⟩ := createSpeedProfile_some 1.5 0.2 gauss
        (show (0 : ℤ) < inflatedHorizon routeLength by omega)
      have hbn : createBPMProfile (inflatedHorizon routeLength - 2) 120 1.5 sp
          (padTruncate (buildElevationChanges dist 1.5 points)
            (inflatedHorizon routeLength).toNat) jitB sigmoid = none := by
        unfold createBPMProfile
        rw [if_pos (by omega)]
      simp only [hsp, hbn]
  · intro hH
    simp only [handleGenerateFileSingleMarker]
    rw [if_neg hpts]
    obtain ⟨sp, hsp⟩ := createSpeedProfile_some 1.5 0.2 gauss
      (show (0 : ℤ) < inflatedHorizon routeLength by omega)
    have hsplen := createSpeedProfile_length hsp
    obtain ⟨b, hb⟩ := createBPMProfile_some 120 1.5
      (padTruncate (buildElevationChanges dist 1.5 points)
        (inflatedHorizon routeLength).toNat)
      jitB sigmoid (show (0 : ℤ) < inflatedHorizon routeLength - 2 by omega)
      (show (inflatedHorizon routeLength - 2).toNat ≤ sp.length by rw [hsplen]; omega)
    have hblen := createBPMProfile_length hb
    obtain ⟨cad, hc⟩ := createCadenceProfile_some 80 1.5
      (padTruncate (buildElevationChanges dist 1.5 points)
        (inflatedHorizon routeLength).toNat)
      jitC (show (0 : ℤ) < inflatedHorizon routeLength - 2 by omega)
      (show (inflatedHorizon routeLength - 2).toNat ≤ sp.length by rw [hsplen]; omega)
    have hclen := createCadenceProfile_length hc
    obtain ⟨interp, hloop⟩ := segmentLoop_some dist bearingF destPt
      (show inflatedHorizon routeLength - 2 ≤ (sp.length : ℤ) by rw [hsplen]; omega)
      (points.zip points.tail) (fun pr _ => hdist pr.1 pr.2) 0 le_rfl (by omega)
    have hbne : b ≠ [] := by
      intro hn
      rw [hn] at hblen
      simp only [List.length_nil] at hblen
      omega
    have hcne : cad ≠ [] := by
      intro hn
      rw [hn] at hclen
      simp only [List.length_nil] at hclen
      omega
    obtain ⟨br, hrb⟩ := reconcile_some interp.length hbne
    obtain ⟨cr, hrc⟩ := reconcile_some interp.length hcne
    simp only [hsp, hb, hc, hloop, hrb, hrc]
    rw [if_neg (by simp [generateTimestamps_length])]
    exact ⟨_, rfl⟩

/-- Claim C7 witness: with one parsed point, a routeLength of 1 (inflated
horizon 0) panics while a routeLength of 6 (inflated horizon 5) does not. -/
theorem claim7_witness :
    handleGenerateFileSingleMarker (fun _ _ => 1) (fun _ _ _ _ => 0)
        (fun la lo _ _ => (la, lo)) (fun _ => 0) (fun _ => 1) (fun _ => 1) (fun _ => 0) 0
        [⟨0, 0, 0⟩] 1 = .crash ∧
    handleGenerateFileSingleMarker (fun _ _ => 1) (fun _ _ _ _ => 0)
        (fun la lo _ _ => (la, lo)) (fun _ => 0) (fun _ => 1) (fun _ => 1) (fun _ => 0) 0
        [⟨0, 0, 0⟩] 6 ≠ .crash := by
  constructor
  · exact (claim7_panic_boundary (fun _ _ => 1) (fun _ _ _ _ => 0)
      (fun la lo _ _ => (la, lo)) (fun _ => 0) (fun _ => 1) (fun _ => 1) (fun _ => 0) 0
      [⟨0, 0, 0⟩] 1 (by decide) (fun _ _ => by norm_num)).1 (by decide)
  · obtain ⟨r, hr⟩ := (claim7_panic_boundary (fun _ _ => 1) (fun _ _ _ _ => 0)
      (fun la lo _ _ => (la, lo)) (fun _ => 0) (fun _ => 1) (fun _ => 1) (fun _ => 0) 0
      [⟨0, 0, 0⟩] 6 (by decide) (fun _ _ => by norm_num)).2 (by decide)
    rw [hr]
    exact fun hcontra => Outcome.noConfusion hcontra

/-- Claim C10: a request whose parsed waypoint sequence is a single point
(no segments to interpolate), with inflated horizon at least 3, returns a
successful record whose route and all reconciled series have length 0 (the
second of the two policies the claim allows). -/
theorem claim10_single_waypoint (dist : Trkpt → Trkpt → ℚ)
    (bearingF : ℚ → ℚ → ℚ → ℚ → ℚ) (destPt : ℚ → ℚ → ℚ → ℚ → ℚ × ℚ)
    (gauss : ℕ → ℚ) (jitB jitC : ℕ → ℤ) (sigmoid : ℚ → ℚ) (startTime : ℤ)
    (p : Trkpt) (routeLength : ℤ) (hH : 3 ≤ inflatedHorizon routeLength) :
    handleGenerateFileSingleMarker dist bearingF destPt gauss jitB jitC sigmoid
      startTime [p] routeLength =
      .ok { timestamps := [], bpmProfile := [], paceProfile := [], route := [] } := by
  simp only [handleGenerateFileSingleMarker]
  rw [if_neg (by simp)]
  obtain ⟨sp, hsp⟩ := createSpeedProfile_some 1.5 0.2 gauss
    (show (0 : ℤ) < inflatedHorizon routeLength by omega)
  have hsplen := createSpeedProfile_length hsp
  obtain ⟨b, hb⟩ := createBPMProfile_some 120 1.5
    (padTruncate (buildElevationChanges dist 1.5 [p]) (inflatedHorizon routeLength).toNat)
    jitB sigmoid (show (0 : ℤ) < inflatedHorizon routeLength - 2 by omega)
    (show (inflatedHorizon routeLength - 2).toNat ≤ sp.length by rw [hsplen]; omega)
  obtain ⟨cad, hc⟩ := createCadenceProfile_some 80 1.5
    (padTruncate (buildElevationChanges dist 1.5 [p]) (inflatedHorizon routeLength).toNat)
    jitC (show (0 : ℤ) < inflatedHorizon routeLength - 2 by omega)
    (show (inflatedHorizon routeLength - 2).toNat ≤ sp.length by rw [hsplen]; omega)
  have hloop : segmentLoop dist bearingF destPt sp (inflatedHorizon routeLength - 2)
      ([p].zip [p].tail) 0 = some [] := rfl
  have hrb : reconcile b 0 = some (b.take 0) := by
    unfold reconcile
    rw [if_neg (by omega)]
  have hrc : reconcile cad 0 = some (cad.take 0) := by
    unfold reconcile
    rw [if_neg (by omega)]
  have halign : alignSpeed sp 0 = [] := by
    unfold alignSpeed
    rw [if_pos (show 0 < sp.length by rw [hsplen]; omega)]
    simp
  simp only [hsp, hb, hc, hloop, List.length_nil, hrb, hrc]
  rw [if_neg (by simp [generateTimestamps_length])]
  simp [generateTimestamps, buildPace, halign]

/-- Claim C10 witness: the empty successful record at routeLength 6. -/
theorem claim10_witness :
    handleGenerateFileSingleMarker (fun _ _ => 1) (fun _ _ _ _ => 0)
        (fun la lo _ _ => (la, lo)) (fun _ => 0) (fun _ => 1) (fun _ => 1) (fun _ => 0) 0
        [⟨0, 0, 0⟩] 6 =
      .ok { timestamps := [], bpmProfile := [], paceProfile := [], route := [] } :=
  claim10_single_waypoint (fun _ _ => 1) (fun _ _ _ _ => 0) (fun la lo _ _ => (la, lo))
    (fun _ => 0) (fun _ => 1) (fun _ => 1) (fun _ => 0) 0 ⟨0, 0, 0⟩ 6 (by decide)

end RatReducible
